import Mathlib

/-!
Verification development for the Mashup_web repository (src/app.py,
src/tasks.py).  The pipeline downloads the top search results for a query,
trims each audio to the leading Y seconds, concatenates the clips, zips the
result, caches the zip under a fresh token with a 20-minute TTL, and emails
the zip.  Durations are modelled in milliseconds, the unit pydub slices by;
archive contents are modelled as lists of naturals.
-/

/-- Archive bytes (contents of a file). -/
abbrev Bytes := List Nat

/-- One search result processed by the downloader: its output filename
(from the yt-dlp output template), whether its download and mp3 extraction
succeed, and the duration in milliseconds of the extracted audio. -/
structure Entry where
  filename : String
  ok : Bool
  durMs : Nat
deriving DecidableEq

/-- app.py line 30: DOWNLOAD_TTL_SECONDS = 20 * 60. -/
def DOWNLOAD_TTL_SECONDS : Nat := 20 * 60

/-- One value of the DOWNLOADS dict (app.py line 31).  The backing file is
DOWNLOAD_CACHE_DIR slash token dot zip, so the path is identified by the
token that named it; created is the wall-clock creation time and filename
the display name offered to the browser. -/
structure DownloadMeta where
  path : Nat
  created : Nat
  filename : String
deriving DecidableEq

/-- Server-side mutable state of app.py: the DOWNLOADS dict (token to meta)
and the contents of the cache directory (path to bytes).  The per-job
temporary tree made by tempfile.mkdtemp is tracked separately by the job
functions: mkdtemp creates a fresh directory, so the tree is disjoint from
DOWNLOAD_CACHE_DIR. -/
structure SrvState where
  downloads : List (Nat × DownloadMeta)
  files : List (Nat × Bytes)
deriving DecidableEq

/-- Association-list lookup, the model of Python dict access. -/
def lookup {α : Type} : List (Nat × α) → Nat → Option α
  | [], _ => none
  | (k, v) :: rest, t => if k = t then some v else lookup rest t

/-- Removal of a key: Python dict pop, or deleting the file at a path. -/
def eraseKey {α : Type} (m : List (Nat × α)) (k : Nat) : List (Nat × α) :=
  m.filter fun p => decide (p.1 ≠ k)

/-- Overwriting insertion: Python dict assignment, or writing a file. -/
def insertKey {α : Type} (m : List (Nat × α)) (k : Nat) (v : α) : List (Nat × α) :=
  (k, v) :: eraseKey m k

/-- Unlinking the backing file of one expired entry: when the unlink raises
the bare except swallows the error and the file survives; an unlink of an
absent path is the identity (the code guards with an existence check). -/
def unlinkExpired (failUnlink : List Nat) (fs : List (Nat × Bytes)) (p : Nat × DownloadMeta) :
    List (Nat × Bytes) :=
  if failUnlink.contains p.2.path then fs else eraseKey fs p.2.path

/-- app.py line 34, cleanup_downloads.  Python first builds the list of
expired tokens (age strictly greater than the TTL), then pops each one,
unlinking its backing file when it exists; the bare except swallows any
unlink error and the dict entry is popped regardless.  failUnlink lists the
paths whose unlink raises. -/
def cleanup_downloads (failUnlink : List Nat) (now : Nat) (st : SrvState) : SrvState :=
  let expired := st.downloads.filter fun p => decide (DOWNLOAD_TTL_SECONDS < now - p.2.created)
  { downloads := st.downloads.filter fun p => decide (¬ DOWNLOAD_TTL_SECONDS < now - p.2.created),
    files := expired.foldl (unlinkExpired failUnlink) st.files }

/-- app.py line 146, cache_zip_for_download: sweep, mint a token (uuid4,
modelled as a caller-supplied fresh token), copy the zip bytes into the
cache directory under the token, record the entry with the current time and
the display name, and return the token. -/
def cache_zip_for_download (failUnlink : List Nat) (now freshTok : Nat)
    (zipBytes : Bytes) (displayName : String) (st : SrvState) : Nat × SrvState :=
  let st1 := cleanup_downloads failUnlink now st
  (freshTok,
    { downloads := insertKey st1.downloads freshTok ⟨freshTok, now, displayName⟩,
      files := insertKey st1.files freshTok zipBytes })

/-- The three responses of the download route (app.py line 239): the 404
page for an expired or invalid link, the 404 page for a vanished backing
file, and the file sent as an attachment under its display name. -/
inductive DownloadResp where
  | expiredOrInvalid
  | fileNotFound
  | fileResp (bytes : Bytes) (downloadName : String)
deriving DecidableEq

/-- app.py line 239, the download route: sweep, look the token up, check the
backing file, and send it as an attachment named by the stored filename. -/
def download_route (failUnlink : List Nat) (now : Nat) (token : Nat) (st : SrvState) :
    DownloadResp × SrvState :=
  let st1 := cleanup_downloads failUnlink now st
  match lookup st1.downloads token with
  | none => (.expiredOrInvalid, st1)
  | some meta =>
    match lookup st1.files meta.path with
    | none => (.fileNotFound, st1)
    | some bytes => (.fileResp bytes meta.filename, st1)

/-- Repeated opportunistic sweeps: cleanup_downloads runs at the top of every
index request, of every download request, and inside cache_zip_for_download. -/
def sweeps (failUnlink : List Nat) (times : List Nat) (st : SrvState) : SrvState :=
  times.foldl (fun s t => cleanup_downloads failUnlink t s) st

/-- Modelled collaborator: yt_dlp.YoutubeDL.download over a ytsearchN query.
Neither call site (app.py line 89, tasks.py line 41) sets the ignoreerrors
option, whose default is False; under that default a failing entry of the
search playlist raises DownloadError out of the download call, aborting the
remaining entries.  ydlRaised says whether the batch call raised. -/
def ydlRaised : List Entry → Bool
  | [] => false
  | e :: rest => if e.ok then ydlRaised rest else true

/-- The mp3 files the batch call wrote before returning or aborting: all
entries when every download succeeds, otherwise the prefix before the first
failure (entries after it are never attempted). -/
def ydlWritten : List Entry → List Entry
  | [] => []
  | e :: rest => if e.ok then e :: ydlWritten rest else []

/-- Code-point lexicographic comparison of character lists: the order Python
uses to compare the globbed path strings. -/
def charsLe : List Char → List Char → Bool
  | [], _ => true
  | _ :: _, [] => false
  | a :: as, b :: bs =>
    if a.toNat < b.toNat then true
    else if b.toNat < a.toNat then false
    else charsLe as bs

/-- The order Python sorted(...) uses on the globbed paths: ascending
filename. -/
def byName (a b : Entry) : Prop :=
  charsLe a.filename.data b.filename.data = true

instance : DecidableRel byName :=
  fun a b => inferInstanceAs (Decidable (charsLe a.filename.data b.filename.data = true))

instance : IsTotal Entry byName := by
  constructor
  have go : ∀ as bs : List Char, charsLe as bs = true ∨ charsLe bs as = true := by
    intro as
    induction as with
    | nil => intro bs; left; rfl
    | cons a as ih =>
      intro bs
      cases bs with
      | nil => right; rfl
      | cons b bs =>
        by_cases h1 : a.toNat < b.toNat
        · left; simp [charsLe, h1]
        · by_cases h2 : b.toNat < a.toNat
          · right; simp [charsLe, h2]
          · rcases ih bs with h | h
            · left; simpa [charsLe, h1, h2] using h
            · right; simpa [charsLe, h1, h2] using h
  intro a b
  exact go a.filename.data b.filename.data

instance : IsTrans Entry byName := by
  constructor
  have go : ∀ as bs cs : List Char, charsLe as bs = true → charsLe bs cs = true →
      charsLe as cs = true := by
    intro as
    induction as with
    | nil => intro bs cs _ _; rfl
    | cons a as ih =>
      intro bs cs hab hbc
      cases bs with
      | nil => simp [charsLe] at hab
      | cons b bs =>
        cases cs with
        | nil => simp [charsLe] at hbc
        | cons c cs =>
          simp only [charsLe] at hab hbc ⊢
          by_cases hab1 : a.toNat < b.toNat <;> by_cases hbc1 : b.toNat < c.toNat <;>
            by_cases hab2 : b.toNat < a.toNat <;> by_cases hbc2 : c.toNat < b.toNat <;>
            simp [hab1, hbc1, hab2, hbc2] at hab hbc ⊢ <;>
            first
            | omega
            | (have hac1 : ¬ a.toNat < c.toNat := by omega
               have hac2 : ¬ c.toNat < a.toNat := by omega
               simp [hac1, hac2]
               first
               | exact ih bs cs hab hbc
               | exact ⟨by omega, ih bs cs hab hbc⟩)
  intro a b c h1 h2
  exact go a.filename.data b.filename.data c.filename.data h1 h2

/-- app.py line 84, download_n_audios_by_search: run the batch download and
return sorted(out_dir.glob("*.mp3")).  When the batch raised, the caller in
index takes the error path instead, modelled by none. -/
def download_n_audios_by_search (entries : List Entry) : Option (List Entry) :=
  if ydlRaised entries then none
  else some (List.insertionSort byName (ydlWritten entries))

/-- Characters kept by the regex class of app.py line 55, [a-zA-Z0-9._-]. -/
def keptChar (c : Char) : Bool :=
  c.isAlpha || c.isDigit || c == '.' || c == '_' || c == '-'

/-- One step of the left-to-right scan performed by re.sub of the pattern
"[^cls]+" with replacement "_": the Bool records whether the scanner is
inside a run of disallowed characters that was already replaced. -/
def subStep (cls : Char → Bool) (acc : List Char × Bool) (c : Char) : List Char × Bool :=
  if cls c then (acc.1 ++ [c], false)
  else if acc.2 then acc
  else (acc.1 ++ ['_'], true)

/-- re.sub of the pattern "[^cls]+" with replacement "_", as the single
left-to-right scan the regex engine performs. -/
def reSubRuns (cls : Char → Bool) (s : List Char) : List Char :=
  (s.foldl (subStep cls) ([], false)).1

/-- Run collapsing stated recursively (used to phrase the spec sentence):
every maximal run of characters outside cls becomes a single underscore.
The Bool flag says whether the previous character was inside such a run. -/
def collapseRuns (cls : Char → Bool) : Bool → List Char → List Char
  | _, [] => []
  | inRun, c :: rest =>
    if cls c then c :: collapseRuns cls false rest
    else if inRun then collapseRuns cls true rest
    else '_' :: collapseRuns cls true rest

/-- Python str.strip with the single strip character underscore. -/
def stripUnderscores (s : List Char) : List Char :=
  ((s.dropWhile fun c => c == '_').reverse.dropWhile fun c => c == '_').reverse

/-- app.py line 54, sanitize_filename: substitute runs of characters outside
[a-zA-Z0-9._-] by a single underscore, strip leading and trailing
underscores, and fall back to "mashup" when the result is empty. -/
def sanitize_filename (name : String) : String :=
  let cleaned := stripUnderscores (reSubRuns keptChar name.toList)
  if cleaned = [] then "mashup" else String.mk cleaned

/-- The reading of the packager name rule stated by the spec: every run of
non-alphanumeric characters collapses to one separator and an empty result
falls back to the fixed default name. -/
def sanitizeSpecClaimC9 (name : String) : String :=
  let r := collapseRuns (fun c => c.isAlpha || c.isDigit) false name.toList
  if r = [] then "mashup" else String.mk r

/-- Amended reading of the packager name rule: the kept class is
[a-zA-Z0-9._-] (dot, underscore and hyphen survive), runs of characters
outside it collapse to a single underscore, leading and trailing
underscores are then stripped, and an empty result falls back to the fixed
default name. -/
def sanitizeSpecAmendedC9 (name : String) : String :=
  let r := stripUnderscores (collapseRuns keptChar false name.toList)
  if r = [] then "mashup" else String.mk r

/-- app.py line 95, build_mashup: start from an empty segment and append the
leading clip_ms milliseconds of every file in list order; the pydub slice
audio[:clip_ms] keeps min clip_ms (length audio).  The modelled observable
is the merged duration in milliseconds. -/
def build_mashup (mp3s : List Entry) (seconds_each : Int) : Nat :=
  let clip_ms := (max 1 seconds_each).toNat * 1000
  mp3s.foldl (fun merged e => merged + min clip_ms e.durMs) 0

/-- The per-file clip durations build_mashup concatenates, in list order. -/
def mashupClipDurations (mp3s : List Entry) (seconds_each : Int) : List Nat :=
  let clip_ms := (max 1 seconds_each).toNat * 1000
  mp3s.map fun e => min clip_ms e.durMs

/-- tasks.py line 49, the trim helper, for the nonnegative y validated
upstream: the pydub slice audio[: y * 1000] keeps min (y * 1000) duration
milliseconds. -/
def trim_first_y_seconds (y_seconds : Int) (durMs : Nat) : Nat :=
  min (y_seconds.toNat * 1000) durMs

/-- tasks.py line 60, the merge helper: concatenation sums the durations of
the inputs in list order. -/
def merge_audios (durs : List Nat) : Nat :=
  durs.foldl (· + ·) 0

/-- What index renders after a POST (app.py line 158): an error page without
a download link, the error page that still carries the backup download link
(email failed), or the success page with the download link. -/
inductive IndexResult where
  | pageError (msg : String)
  | errorWithDownload (reason : String) (token : Nat)
  | successWithDownload (token : Nat)
deriving DecidableEq

/-- One POST to the index route: the validated form fields, the search
results with their per-entry download outcomes, the SendGrid outcome, the
fresh uuid token, the wall clock, and the set of cache paths whose deletion
raises. -/
structure JobEnv where
  singer : String
  n : Int
  y : Int
  email : String
  emailValid : Bool
  entries : List Entry
  emailSendOk : Bool
  freshTok : Nat
  now : Nat
  failUnlink : List Nat

/-- shutil.rmtree of the per-job tree with ignore_errors: the whole tree is
removed. -/
def rmtree (_tmpFiles : List String) : List String := []

/-- The try body of index (app.py lines 186 to 233): returns the rendered
result, the server state and the contents of tmp_root at the exit point of
the body, to which the finally clause applies. -/
def runIndexBody (env : JobEnv) (st : SrvState) : IndexResult × SrvState × List String :=
  let dlFiles := (ydlWritten env.entries).map fun e => "downloads/" ++ e.filename
  match download_n_audios_by_search env.entries with
  | none =>
    (.pageError "YouTube blocked downloads on the server (bot/sign-in check).", st, dlFiles)
  | some mp3s =>
    if mp3s = [] then
      (.pageError "No audios downloaded. Try another singer keyword.", st, dlFiles)
    else
      let base := sanitize_filename env.singer
      let zipName := base ++ "_mashup.zip"
      let zipBytes := mashupClipDurations mp3s env.y
      let put := cache_zip_for_download env.failUnlink env.now env.freshTok zipBytes zipName st
      let tmpFiles := dlFiles ++ [base ++ "_mashup.mp3", zipName]
      if env.emailSendOk then (.successWithDownload put.1, put.2, tmpFiles)
      else (.errorWithDownload "Email failed, but ZIP is ready." put.1, put.2, tmpFiles)

/-- app.py line 158, index on a POST: sweep, validate the form fields, then
run the body inside try/finally, with rmtree of the temporary tree applied
on every exit path of the body. -/
def runIndex (env : JobEnv) (st : SrvState) : IndexResult × SrvState × List String :=
  let st1 := cleanup_downloads env.failUnlink env.now st
  if env.singer = "" then (.pageError "Singer name is required.", st1, [])
  else if env.n ≤ 0 ∨ 20 < env.n then
    (.pageError "Number of videos (n) must be between 1 and 20.", st1, [])
  else if env.y ≤ 0 ∨ 60 < env.y then
    (.pageError "Duration (y) must be between 1 and 60 seconds.", st1, [])
  else if env.email = "" then (.pageError "Email is required (as per assignment).", st1, [])
  else if !env.emailValid then
    (.pageError "Invalid email format. Please enter a correct email.", st1, [])
  else
    let r := runIndexBody env st1
    (r.1, r.2.1, rmtree r.2.2)

/-- Outcome of the queued pipeline job: either it raised (the except clause
of tasks.py line 140 logs and re-raises) or it ran to completion. -/
inductive TaskOutcome where
  | raised (msg : String)
  | done (mergedMs : Nat)
deriving DecidableEq

/-- tasks.py line 103, create_mashup_and_email, the queued pipeline: it
caches nothing and mints no pull token, and an email failure re-raises out
of the job.  Returns the outcome and the temporary files left after the
finally clause ran rmtree. -/
def create_mashup_and_email (entries : List Entry) (y : Int) (emailSendOk : Bool) :
    TaskOutcome × List String :=
  let dlFiles := (ydlWritten entries).map fun e => "downloads/" ++ e.filename
  let body : TaskOutcome × List String :=
    if ydlRaised entries then (.raised "DownloadError", dlFiles)
    else
      let audio_files := List.insertionSort byName (ydlWritten entries)
      if audio_files = [] then
        (.raised "No audio files downloaded. Try a different singer name.", dlFiles)
      else
        let trimFiles := audio_files.map fun e => "trims/trim_" ++ e.filename
        let mergedMs := merge_audios (audio_files.map fun e => trim_first_y_seconds y e.durMs)
        let tmpFiles := dlFiles ++ trimFiles ++ ["mashup-output.mp3", "mashup-output.zip"]
        if emailSendOk then (.done mergedMs, tmpFiles)
        else (.raised "SendGrid send failed", tmpFiles)
  (body.1, rmtree body.2)

/-- A concrete job whose second search result fails to download while the
first succeeds. -/
def envOneFetchFails : JobEnv :=
  { singer := "adele", n := 2, y := 10, email := "user@example.com", emailValid := true,
    entries := [⟨"a.mp3", true, 3000⟩, ⟨"b.mp3", false, 0⟩],
    emailSendOk := true, freshTok := 0, now := 0, failUnlink := [] }

/-- A concrete job whose single fetch succeeds and whose email send fails. -/
def envEmailFails : JobEnv :=
  { singer := "adele", n := 1, y := 10, email := "user@example.com", emailValid := true,
    entries := [⟨"a.mp3", true, 5000⟩],
    emailSendOk := false, freshTok := 0, now := 0, failUnlink := [] }

/-- A concrete job whose single fetched track has zero duration. -/
def envZeroDuration : JobEnv :=
  { singer := "adele", n := 1, y := 10, email := "user@example.com", emailValid := true,
    entries := [⟨"a.mp3", true, 0⟩],
    emailSendOk := true, freshTok := 0, now := 0, failUnlink := [] }

example : sanitize_filename "a.b" = "a.b" := by decide
example : sanitize_filename "!!x  y!!" = "x_y" := by decide
example : sanitize_filename "!!!" = "mashup" := by decide
example : sanitizeSpecClaimC9 "a.b" = "a_b" := by decide
example :
    download_n_audios_by_search [⟨"b.mp3", true, 1000⟩, ⟨"a.mp3", true, 1000⟩] =
      some [⟨"a.mp3", true, 1000⟩, ⟨"b.mp3", true, 1000⟩] := by decide
example : build_mashup [⟨"a.mp3", true, 2500⟩, ⟨"b.mp3", true, 99000⟩] 10 = 12500 := by decide

/-! Helper lemmas about the association-list primitives and the sweep. -/

theorem lookup_eraseKey_self {α : Type} (m : List (Nat × α)) (k : Nat) :
    lookup (eraseKey m k) k = none := by
  induction m with
  | nil => rfl
  | cons p rest ih =>
    by_cases h : p.1 = k
    · simpa [eraseKey, List.filter, h] using ih
    · simpa [eraseKey, List.filter, h, lookup] using ih

theorem lookup_eraseKey_ne {α : Type} (m : List (Nat × α)) (k k2 : Nat) (h : k ≠ k2) :
    lookup (eraseKey m k2) k = lookup m k := by
  induction m with
  | nil => rfl
  | cons p rest ih =>
    obtain ⟨a, b⟩ := p
    unfold eraseKey at ih ⊢
    rw [List.filter_cons]
    by_cases h1 : a = k2
    · rw [if_neg (by simp [h1])]
      have h2 : ¬ a = k := by rw [h1]; exact fun hk => h hk.symm
      rw [ih]
      simp only [lookup]
      rw [if_neg h2]
    · rw [if_pos (by simp [h1])]
      simp only [lookup]
      by_cases h2 : a = k
      · rw [if_pos h2, if_pos h2]
      · rw [if_neg h2, if_neg h2]
        exact ih

theorem lookup_eraseKey_none {α : Type} (m : List (Nat × α)) (k k2 : Nat)
    (h : lookup m k = none) : lookup (eraseKey m k2) k = none := by
  by_cases hk : k = k2
  · rw [hk]; exact lookup_eraseKey_self m k2
  · rw [lookup_eraseKey_ne m k k2 hk]; exact h

theorem mem_of_mem_eraseKey {α : Type} {m : List (Nat × α)} {k : Nat} {p : Nat × α}
    (h : p ∈ eraseKey m k) : p ∈ m :=
  (List.mem_filter.mp h).1

theorem lookup_eq_none_of_keys {α : Type} (m : List (Nat × α)) (k : Nat)
    (h : ∀ p ∈ m, p.1 ≠ k) : lookup m k = none := by
  induction m with
  | nil => rfl
  | cons p rest ih =>
    have hp : ¬ p.1 = k := h p (List.mem_cons_self p rest)
    simpa [lookup, hp] using ih fun q hq => h q (List.mem_cons_of_mem p hq)

theorem lookup_filter_none {α : Type} (m : List (Nat × α)) (k : Nat) (pred : Nat × α → Bool)
    (h : ∀ p ∈ m, p.1 = k → pred p = false) : lookup (m.filter pred) k = none := by
  induction m with
  | nil => rfl
  | cons p rest ih =>
    obtain ⟨a, b⟩ := p
    rw [List.filter_cons]
    have htail : ∀ q ∈ rest, q.1 = k → pred q = false :=
      fun q hq hqk => h q (List.mem_cons_of_mem _ hq) hqk
    by_cases hpred : pred (a, b) = true
    · have hak : ¬ a = k := by
        intro he
        have hfalse := h (a, b) (List.mem_cons_self _ _) he
        rw [hfalse] at hpred
        cases hpred
      simp only [hpred, if_true, lookup, hak, if_false]
      exact ih htail
    · simp only [Bool.not_eq_true] at hpred
      simp only [hpred, Bool.false_eq_true, if_false]
      exact ih htail

theorem eq_of_keys_nodup {α : Type} (m : List (Nat × α)) (hnd : (m.map Prod.fst).Nodup)
    (p q : Nat × α) (hp : p ∈ m) (hq : q ∈ m) (hk : p.1 = q.1) : p = q := by
  induction m with
  | nil => cases hp
  | cons r rest ih =>
    have hnd2 : (rest.map Prod.fst).Nodup := (List.nodup_cons.mp (by simpa using hnd)).2
    have hnotin : r.1 ∉ rest.map Prod.fst := (List.nodup_cons.mp (by simpa using hnd)).1
    rcases List.mem_cons.mp hp with hp1 | hp1 <;> rcases List.mem_cons.mp hq with hq1 | hq1
    · rw [hp1, hq1]
    · exfalso
      have hmem2 : q.1 ∈ List.map Prod.fst rest := List.mem_map_of_mem Prod.fst hq1
      rw [← hk, hp1] at hmem2
      exact hnotin hmem2
    · exfalso
      have hmem2 : p.1 ∈ List.map Prod.fst rest := List.mem_map_of_mem Prod.fst hp1
      rw [hk, hq1] at hmem2
      exact hnotin hmem2
    · exact ih hnd2 hp1 hq1

theorem lookup_unlinkFold_preserve (fU : List Nat) (L : List (Nat × DownloadMeta))
    (fs : List (Nat × Bytes)) (x : Nat) (h : ∀ p ∈ L, p.2.path ≠ x) :
    lookup (L.foldl (unlinkExpired fU) fs) x = lookup fs x := by
  induction L generalizing fs with
  | nil => rfl
  | cons p rest ih =>
    have hp : p.2.path ≠ x := h p (List.mem_cons_self p rest)
    have hrest : ∀ q ∈ rest, q.2.path ≠ x := fun q hq => h q (List.mem_cons_of_mem p hq)
    rw [List.foldl_cons, ih _ hrest]
    unfold unlinkExpired
    by_cases hf : fU.contains p.2.path
    · rw [if_pos hf]
    · rw [if_neg hf]
      exact lookup_eraseKey_ne fs x p.2.path fun he => hp he.symm

theorem lookup_unlinkFold_none (fU : List Nat) (L : List (Nat × DownloadMeta))
    (fs : List (Nat × Bytes)) (x : Nat) (h : lookup fs x = none) :
    lookup (L.foldl (unlinkExpired fU) fs) x = none := by
  induction L generalizing fs with
  | nil => exact h
  | cons p rest ih =>
    rw [List.foldl_cons]
    apply ih
    unfold unlinkExpired
    by_cases hf : fU.contains p.2.path
    · rw [if_pos hf]; exact h
    · rw [if_neg hf]; exact lookup_eraseKey_none fs x p.2.path h

theorem lookup_unlinkFold_kill (fU : List Nat) (L : List (Nat × DownloadMeta))
    (fs : List (Nat × Bytes)) (x : Nat) (q : Nat × DownloadMeta) (hq : q ∈ L)
    (hqx : q.2.path = x) (hf : fU.contains x = false) :
    lookup (L.foldl (unlinkExpired fU) fs) x = none := by
  induction L generalizing fs with
  | nil => cases hq
  | cons p rest ih =>
    rcases List.mem_cons.mp hq with hp | hp
    · subst hp
      rw [List.foldl_cons]
      apply lookup_unlinkFold_none
      unfold unlinkExpired
      rw [hqx, hf]
      simp only [Bool.false_eq_true, if_false]
      exact lookup_eraseKey_self fs x
    · rw [List.foldl_cons]
      exact ih _ hp

theorem foldl_add_init (l : List Nat) (a : Nat) : l.foldl (· + ·) a = a + l.sum := by
  induction l generalizing a with
  | nil => simp
  | cons x xs ih => simp [List.foldl_cons, ih, List.sum_cons]; omega

theorem foldl_min_add (clip : Nat) (l : List Entry) (a : Nat) :
    l.foldl (fun merged e => merged + min clip e.durMs) a =
      a + (l.map fun e => min clip e.durMs).sum := by
  induction l generalizing a with
  | nil => simp
  | cons x xs ih => simp [List.foldl_cons, ih]; omega

theorem build_mashup_eq_sum (mp3s : List Entry) (y : Int) :
    build_mashup mp3s y = (mashupClipDurations mp3s y).sum := by
  unfold build_mashup mashupClipDurations
  simpa using foldl_min_add ((max 1 y).toNat * 1000) mp3s 0

theorem ydlWritten_of_not_raised (l : List Entry) (h : ydlRaised l = false) :
    ydlWritten l = l := by
  induction l with
  | nil => rfl
  | cons e rest ih =>
    cases he : e.ok
    · simp [ydlRaised, he] at h
    · simp only [ydlRaised, he, if_true] at h
      simp [ydlWritten, he, ih h]

theorem ydlRaised_of_mem_fail (l : List Entry) (e : Entry) (hmem : e ∈ l)
    (hfail : e.ok = false) : ydlRaised l = true := by
  induction l with
  | nil => cases hmem
  | cons p rest ih =>
    rcases List.mem_cons.mp hmem with hp | hp
    · rw [hp] at hfail
      simp [ydlRaised, hfail]
    · cases hok : p.ok
      · simp [ydlRaised, hok]
      · simp [ydlRaised, hok, ih hp]

theorem ydlWritten_stops_at_failure (pre post : List Entry) (e : Entry)
    (hpre : ∀ p ∈ pre, p.ok = true) (hfail : e.ok = false) :
    ydlWritten (pre ++ e :: post) = pre := by
  induction pre with
  | nil => simp [ydlWritten, hfail]
  | cons p rest ih =>
    have hok : p.ok = true := hpre p (List.mem_cons_self p rest)
    have hrest : ∀ q ∈ rest, q.ok = true := fun q hq => hpre q (List.mem_cons_of_mem p hq)
    simp [ydlWritten, hok, ih hrest]

theorem insertionSort_ne_nil (l : List Entry) (h : l ≠ []) :
    List.insertionSort byName l ≠ [] := by
  intro hnil
  have hperm := List.perm_insertionSort byName l
  rw [hnil] at hperm
  exact h hperm.symm.eq_nil

theorem foldl_subStep_eq (cls : Char → Bool) :
    ∀ (s : List Char) (acc : List Char) (inRun : Bool),
      (s.foldl (subStep cls) (acc, inRun)).1 = acc ++ collapseRuns cls inRun s := by
  intro s
  induction s with
  | nil => intro acc inRun; simp [collapseRuns]
  | cons c rest ih =>
    intro acc inRun
    rw [List.foldl_cons]
    cases hc : cls c
    · cases hin : inRun
      · have hstep : subStep cls (acc, false) c = (acc ++ ['_'], true) := by
          simp [subStep, hc]
        rw [hstep, ih]
        simp [collapseRuns, hc]
      · have hstep : subStep cls (acc, true) c = (acc, true) := by
          simp [subStep, hc]
        rw [hstep, ih]
        simp [collapseRuns, hc]
    · have hstep : subStep cls (acc, inRun) c = (acc ++ [c], false) := by
        simp [subStep, hc]
      rw [hstep, ih]
      simp [collapseRuns, hc]

/-! The claims. -/

/-- Claim C1, counterexample.  The claim predicts that the clips of the
final artifact appear in ascending search-rank order of the locators that
successfully produced a clip, which for a fully successful batch is the
input list itself.  The code instead returns sorted(out_dir.glob(...)):
with ranks given to filenames b.mp3 then a.mp3, the output is a.mp3 then
b.mp3, not the rank order. -/
theorem c1_rank_order_counterexample :
    download_n_audios_by_search [⟨"b.mp3", true, 1000⟩, ⟨"a.mp3", true, 1000⟩] ≠
      some (([⟨"b.mp3", true, 1000⟩, ⟨"a.mp3", true, 1000⟩] : List Entry).filter
        fun e => e.ok) := by
  decide

/-- Claim C1, amended.  The clips of the final artifact appear in ascending
lexicographic filename order (sorted output of the glob), a permutation of
the files the batch wrote; search-rank order is not preserved in general. -/
theorem c1_amended_sorted_by_filename (entries out : List Entry)
    (h : download_n_audios_by_search entries = some out) :
    List.Sorted byName out ∧ List.Perm out (ydlWritten entries) := by
  unfold download_n_audios_by_search at h
  cases hr : ydlRaised entries
  · rw [hr] at h
    simp only [Bool.false_eq_true, if_false, Option.some.injEq] at h
    rw [← h]
    exact ⟨List.sorted_insertionSort byName _, List.perm_insertionSort byName _⟩
  · rw [hr] at h
    simp at h

theorem c1_amended_sorted_by_filename_witness :
    List.Sorted byName [⟨"a.mp3", true, 1000⟩, ⟨"b.mp3", true, 1000⟩] ∧
      List.Perm [(⟨"a.mp3", true, 1000⟩ : Entry), ⟨"b.mp3", true, 1000⟩]
        (ydlWritten [⟨"b.mp3", true, 1000⟩, ⟨"a.mp3", true, 1000⟩]) :=
  c1_amended_sorted_by_filename [⟨"b.mp3", true, 1000⟩, ⟨"a.mp3", true, 1000⟩]
    [⟨"a.mp3", true, 1000⟩, ⟨"b.mp3", true, 1000⟩] (by decide)

/-- Claim C4.  For valid Y (between 1 and 60), the duration of the merged
artifact equals the sum over the fetched tracks of min of Y and the track
duration, stated in milliseconds, on both pipelines: build_mashup of app.py
and the trim-then-merge composition of tasks.py. -/
theorem c4_artifact_duration (mp3s : List Entry) (y : Int) (h1 : 1 ≤ y) (_h2 : y ≤ 60) :
    build_mashup mp3s y = (mp3s.map fun e => min (y.toNat * 1000) e.durMs).sum ∧
    merge_audios (mp3s.map fun e => trim_first_y_seconds y e.durMs) =
      (mp3s.map fun e => min (y.toNat * 1000) e.durMs).sum := by
  have hmax : max 1 y = y := max_eq_right h1
  constructor
  · rw [build_mashup_eq_sum]
    unfold mashupClipDurations
    rw [hmax]
  · unfold merge_audios trim_first_y_seconds
    simpa using foldl_add_init ((mp3s.map fun e => min (y.toNat * 1000) e.durMs)) 0

theorem c4_artifact_duration_witness :
    build_mashup [⟨"a.mp3", true, 2500⟩, ⟨"b.mp3", true, 99000⟩] 10 =
        (([⟨"a.mp3", true, 2500⟩, ⟨"b.mp3", true, 99000⟩] : List Entry).map fun e =>
          min ((10 : Int).toNat * 1000) e.durMs).sum ∧
    merge_audios (([⟨"a.mp3", true, 2500⟩, ⟨"b.mp3", true, 99000⟩] : List Entry).map fun e =>
        trim_first_y_seconds 10 e.durMs) =
      (([⟨"a.mp3", true, 2500⟩, ⟨"b.mp3", true, 99000⟩] : List Entry).map fun e =>
        min ((10 : Int).toNat * 1000) e.durMs).sum :=
  c4_artifact_duration [⟨"a.mp3", true, 2500⟩, ⟨"b.mp3", true, 99000⟩] 10
    (by decide) (by decide)

/-- Claim C7, counterexample.  A job whose single fetched track has zero
duration is not treated as a fetch failure: the job succeeds and delivers,
and the assembly receives a zero-length clip from that track. -/
theorem c7_zero_duration_counterexample :
    (runIndex envZeroDuration ⟨[], []⟩).1 = IndexResult.successWithDownload 0 ∧
      mashupClipDurations [⟨"a.mp3", true, 0⟩] 10 = [0] := by
  decide

/-- Claim C7, amended.  A fetched track with zero-duration audio is kept,
not excluded: it contributes a zero-length clip to the assembly (so the
artifact duration is unchanged by its presence) and it still occupies a
position in the clip sequence. -/
theorem c7_amended_zero_duration_kept (pre post : List Entry) (e : Entry) (y : Int)
    (h : e.durMs = 0) :
    build_mashup (pre ++ e :: post) y = build_mashup (pre ++ post) y ∧
    mashupClipDurations (pre ++ e :: post) y =
      mashupClipDurations pre y ++ 0 :: mashupClipDurations post y := by
  constructor
  · rw [build_mashup_eq_sum, build_mashup_eq_sum]
    unfold mashupClipDurations
    simp [h]
  · unfold mashupClipDurations
    simp [h]

theorem c7_amended_zero_duration_kept_witness :
    build_mashup [⟨"a.mp3", true, 1500⟩, ⟨"z.mp3", true, 0⟩] 10 =
        build_mashup [⟨"a.mp3", true, 1500⟩] 10 ∧
    mashupClipDurations [⟨"a.mp3", true, 1500⟩, ⟨"z.mp3", true, 0⟩] 10 =
      mashupClipDurations [⟨"a.mp3", true, 1500⟩] 10 ++
        0 :: mashupClipDurations [] 10 :=
  c7_amended_zero_duration_kept [⟨"a.mp3", true, 1500⟩] [] ⟨"z.mp3", true, 0⟩ 10 rfl

/-- Claim C9, counterexample.  The claim collapses every run of
non-alphanumeric characters to a single separator; the code keeps dot,
underscore and hyphen (regex class [a-zA-Z0-9._-]) and also strips leading
and trailing underscores, so on "a.b" the code returns "a.b" while the
claimed rule returns "a_b". -/
theorem c9_sanitize_counterexample :
    sanitize_filename "a.b" ≠ sanitizeSpecClaimC9 "a.b" := by
  decide

/-- Claim C9, amended.  The base name is obtained by collapsing every run
of characters outside [a-zA-Z0-9._-] to a single underscore, then stripping
leading and trailing underscores; when the result is empty the fixed
default name "mashup" is used. -/
theorem c9_amended_sanitize (name : String) :
    sanitize_filename name = sanitizeSpecAmendedC9 name := by
  unfold sanitize_filename sanitizeSpecAmendedC9 reSubRuns
  rw [foldl_subStep_eq keptChar name.toList [] false]
  rw [List.nil_append]

/-- Claim C10.  Any number of opportunistic sweeps, each run while the age
of the entry is at most the TTL, leaves the entry in the cache unchanged:
the same token still maps to the same path, creation time and display
name. -/
theorem c10_sweep_preserves_fresh (failUnlink : List Nat) (times : List Nat) (tok : Nat)
    (meta : DownloadMeta) (st : SrvState) (hmem : (tok, meta) ∈ st.downloads)
    (hyoung : ∀ t ∈ times, t - meta.created ≤ DOWNLOAD_TTL_SECONDS) :
    (tok, meta) ∈ (sweeps failUnlink times st).downloads := by
  revert hmem hyoung
  induction times generalizing st with
  | nil => intro hmem _; exact hmem
  | cons t rest ih =>
    intro hmem hyoung
    unfold sweeps at ih ⊢
    rw [List.foldl_cons]
    apply ih
    · unfold cleanup_downloads
      apply List.mem_filter.mpr
      refine ⟨hmem, ?_⟩
      have hage := hyoung t (List.mem_cons_self t rest)
      simp only [decide_eq_true_eq]
      omega
    · exact fun t2 ht2 => hyoung t2 (List.mem_cons_of_mem t ht2)

theorem c10_sweep_preserves_fresh_witness :
    ((7 : Nat), (⟨7, 0, "m.zip"⟩ : DownloadMeta)) ∈
      (sweeps [] [100, 1200] ⟨[(7, ⟨7, 0, "m.zip"⟩)], [(7, [4])]⟩).downloads :=
  c10_sweep_preserves_fresh [] [100, 1200] 7 ⟨7, 0, "m.zip"⟩
    ⟨[(7, ⟨7, 0, "m.zip"⟩)], [(7, [4])]⟩ (by decide) (by decide)

/-- Claim C2, counterexample.  In the job envOneFetchFails the first search
result downloads successfully and the second fails.  The claim predicts the
failing locator is skipped and the job proceeds with the surviving clip;
instead the batch download raises (ignoreerrors is left at its default) and
index answers with the error page, producing no mashup and no download
token even though one fetch succeeded. -/
theorem c2_isolation_counterexample :
    (runIndex envOneFetchFails ⟨[], []⟩).1 =
      IndexResult.pageError "YouTube blocked downloads on the server (bot/sign-in check)." ∧
    (⟨"a.mp3", true, 3000⟩ : Entry) ∈ ydlWritten envOneFetchFails.entries := by
  decide

/-- Claim C2, amended.  A failing locator aborts the batch: the locators
after the first failure are never fetched (the written files are exactly
the prefix before it), and the job returns the download error page even
when other locators succeeded. -/
theorem c2_amended_failure_aborts (env : JobEnv) (st : SrvState) (pre post : List Entry)
    (e : Entry)
    (hs : ¬ env.singer = "")
    (hn : ¬ (env.n ≤ 0 ∨ 20 < env.n))
    (hy : ¬ (env.y ≤ 0 ∨ 60 < env.y))
    (he : ¬ env.email = "")
    (hv : env.emailValid = true)
    (hsplit : env.entries = pre ++ e :: post)
    (hpre : ∀ p ∈ pre, p.ok = true)
    (hfail : e.ok = false) :
    (runIndex env st).1 =
      IndexResult.pageError "YouTube blocked downloads on the server (bot/sign-in check)." ∧
    ydlWritten env.entries = pre := by
  have hraised : ydlRaised env.entries = true := by
    apply ydlRaised_of_mem_fail env.entries e ?_ hfail
    rw [hsplit]
    exact List.mem_append_right pre (List.mem_cons_self e post)
  have hwritten : ydlWritten env.entries = pre := by
    rw [hsplit]
    exact ydlWritten_stops_at_failure pre post e hpre hfail
  refine ⟨?_, hwritten⟩
  unfold runIndex runIndexBody download_n_audios_by_search
  rw [if_neg hs, if_neg hn, if_neg hy, if_neg he, hv]
  simp [hraised]

theorem c2_amended_failure_aborts_witness :
    (runIndex envOneFetchFails ⟨[], []⟩).1 =
      IndexResult.pageError "YouTube blocked downloads on the server (bot/sign-in check)." ∧
    ydlWritten envOneFetchFails.entries = [⟨"a.mp3", true, 3000⟩] :=
  c2_amended_failure_aborts envOneFetchFails ⟨[], []⟩ [⟨"a.mp3", true, 3000⟩] []
    ⟨"b.mp3", false, 0⟩ (by decide) (by decide) (by decide) (by decide) (by decide)
    (by decide) (by decide) (by decide)

/-- Claim C3, counterexample.  The queued pipeline of tasks.py reaches the
delivery step and its push (email) fails; the exception re-raises, the job
fails, and its result carries no pull download token (the pipeline never
mints one), contradicting the claim that push failure is non-fatal and that
the pull URL is part of the result. -/
theorem c3_push_failure_counterexample :
    (create_mashup_and_email [⟨"a.mp3", true, 5000⟩] 10 false).1 =
      TaskOutcome.raised "SendGrid send failed" := by
  decide

/-- Claim C3, amended.  In the web route (app.py index) push failure is
non-fatal and the result carries the pull download token in both the
push-success and the push-failure outcome; in the queued pipeline
(tasks.py create_mashup_and_email) there is no pull token and a push
failure raises out of the job. -/
theorem c3_amended_pull_token (env : JobEnv) (st : SrvState)
    (hs : ¬ env.singer = "")
    (hn : ¬ (env.n ≤ 0 ∨ 20 < env.n))
    (hy : ¬ (env.y ≤ 0 ∨ 60 < env.y))
    (he : ¬ env.email = "")
    (hv : env.emailValid = true)
    (hr : ydlRaised env.entries = false)
    (hne : env.entries ≠ []) :
    (runIndex env st).1 =
      (if env.emailSendOk then IndexResult.successWithDownload env.freshTok
       else IndexResult.errorWithDownload "Email failed, but ZIP is ready." env.freshTok) ∧
    (create_mashup_and_email env.entries env.y false).1 =
      TaskOutcome.raised "SendGrid send failed" := by
  have hw : ydlWritten env.entries = env.entries := ydlWritten_of_not_raised _ hr
  have hsne : List.insertionSort byName (ydlWritten env.entries) ≠ [] := by
    rw [hw]
    exact insertionSort_ne_nil _ hne
  constructor
  · unfold runIndex runIndexBody download_n_audios_by_search
    rw [if_neg hs, if_neg hn, if_neg hy, if_neg he, hv]
    rw [hr]
    simp only [Bool.not_true, Bool.false_eq_true, if_false]
    rw [if_neg hsne]
    cases henv : env.emailSendOk <;> simp [henv, cache_zip_for_download]
  · unfold create_mashup_and_email
    rw [hr]
    simp only [Bool.false_eq_true, if_false]
    rw [if_neg hsne]

theorem c3_amended_pull_token_witness :
    (runIndex envEmailFails ⟨[], []⟩).1 =
      (if envEmailFails.emailSendOk then IndexResult.successWithDownload envEmailFails.freshTok
       else IndexResult.errorWithDownload "Email failed, but ZIP is ready."
         envEmailFails.freshTok) ∧
    (create_mashup_and_email envEmailFails.entries envEmailFails.y false).1 =
      TaskOutcome.raised "SendGrid send failed" :=
  c3_amended_pull_token envEmailFails ⟨[], []⟩ (by decide) (by decide) (by decide)
    (by decide) (by decide) (by decide) (by decide)

theorem download_route_after_put (fU : List Nat) (now tok : Nat) (zipBytes : Bytes)
    (name : String) (d : List (Nat × DownloadMeta)) (f : List (Nat × Bytes))
    (hpaths : ∀ p ∈ d, p.2.path ≠ tok) :
    (download_route fU now tok
        ⟨(tok, ⟨tok, now, name⟩) :: d, (tok, zipBytes) :: f⟩).1 =
      DownloadResp.fileResp zipBytes name := by
  have h1 : lookup (cleanup_downloads fU now
      ⟨(tok, ⟨tok, now, name⟩) :: d, (tok, zipBytes) :: f⟩).downloads tok =
      some ⟨tok, now, name⟩ := by
    unfold cleanup_downloads
    simp only
    rw [List.filter_cons, if_pos (by simp)]
    simp [lookup]
  have h2 : lookup (cleanup_downloads fU now
      ⟨(tok, ⟨tok, now, name⟩) :: d, (tok, zipBytes) :: f⟩).files tok =
      some zipBytes := by
    unfold cleanup_downloads
    simp only
    rw [List.filter_cons, if_neg (by simp)]
    rw [lookup_unlinkFold_preserve fU _ _ tok ?hp]
    case hp =>
      intro p hp
      exact hpaths p (List.mem_filter.mp hp).1
    simp [lookup]
  unfold download_route
  simp [h1, h2]

/-- Claim C5.  put followed immediately by get: caching a zip under a fresh
token and requesting the download route with that token at the same instant
returns the identical archive bytes under the same display name.  The
freshness hypothesis models uuid4: no existing entry points at the path the
new token names. -/
theorem c5_put_then_get (failUnlink : List Nat) (now freshTok : Nat) (zipBytes : Bytes)
    (displayName : String) (st : SrvState)
    (hfresh : ∀ p ∈ st.downloads, p.2.path ≠ freshTok) :
    (download_route failUnlink now
        (cache_zip_for_download failUnlink now freshTok zipBytes displayName st).1
        (cache_zip_for_download failUnlink now freshTok zipBytes displayName st).2).1 =
      DownloadResp.fileResp zipBytes displayName := by
  show (download_route failUnlink now freshTok
      ⟨(freshTok, ⟨freshTok, now, displayName⟩) ::
          eraseKey (cleanup_downloads failUnlink now st).downloads freshTok,
        (freshTok, zipBytes) ::
          eraseKey (cleanup_downloads failUnlink now st).files freshTok⟩).1 =
    DownloadResp.fileResp zipBytes displayName
  apply download_route_after_put
  intro p hp
  have hp1 : p ∈ (cleanup_downloads failUnlink now st).downloads := mem_of_mem_eraseKey hp
  have hp2 : p ∈ st.downloads := by
    unfold cleanup_downloads at hp1
    simp only at hp1
    exact (List.mem_filter.mp hp1).1
  exact hfresh p hp2

theorem c5_put_then_get_witness :
    (download_route [] 5
        (cache_zip_for_download [] 5 2 [1, 2, 3] "adele_mashup.zip"
          ⟨[(1, ⟨1, 0, "old.zip"⟩)], [(1, [9])]⟩).1
        (cache_zip_for_download [] 5 2 [1, 2, 3] "adele_mashup.zip"
          ⟨[(1, ⟨1, 0, "old.zip"⟩)], [(1, [9])]⟩).2).1 =
      DownloadResp.fileResp [1, 2, 3] "adele_mashup.zip" :=
  c5_put_then_get [] 5 2 [1, 2, 3] "adele_mashup.zip"
    ⟨[(1, ⟨1, 0, "old.zip"⟩)], [(1, [9])]⟩ (by decide)

/-- Claim C6.  For a cache entry whose age exceeds the 20-minute TTL, a pull
request with its token answers the expired-or-invalid 404, the entry is
gone from the store afterwards regardless of whether deleting its backing
file raised (the error is swallowed), and when the deletion does not raise
the backing file is removed as well. -/
theorem c6_expired_entry_swept (failUnlink : List Nat) (now tok : Nat) (meta : DownloadMeta)
    (st : SrvState) (hmem : (tok, meta) ∈ st.downloads)
    (hnd : (st.downloads.map Prod.fst).Nodup)
    (hexp : DOWNLOAD_TTL_SECONDS < now - meta.created) :
    (download_route failUnlink now tok st).1 = DownloadResp.expiredOrInvalid ∧
    lookup (download_route failUnlink now tok st).2.downloads tok = none ∧
    (failUnlink.contains meta.path = false →
      lookup (download_route failUnlink now tok st).2.files meta.path = none) := by
  have hdl : lookup (cleanup_downloads failUnlink now st).downloads tok = none := by
    unfold cleanup_downloads
    simp only
    apply lookup_filter_none
    intro p hp hpk
    have hpm : p = (tok, meta) :=
      eq_of_keys_nodup st.downloads hnd p (tok, meta) hp hmem (by rw [hpk])
    rw [hpm]
    simp [hexp]
  have hfile : failUnlink.contains meta.path = false →
      lookup (cleanup_downloads failUnlink now st).files meta.path = none := by
    intro hf
    unfold cleanup_downloads
    simp only
    apply lookup_unlinkFold_kill failUnlink _ _ _ (tok, meta) ?_ rfl hf
    exact List.mem_filter.mpr ⟨hmem, by simp [hexp]⟩
  refine ⟨?_, ?_, ?_⟩
  · unfold download_route
    simp [hdl]
  · unfold download_route
    simp [hdl]
  · intro hf
    unfold download_route
    simp [hdl, hfile hf]

theorem c6_expired_entry_swept_witness :
    (download_route [] 1261 5 ⟨[(5, ⟨5, 0, "x.zip"⟩)], [(5, [1, 2, 3])]⟩).1 =
        DownloadResp.expiredOrInvalid ∧
    lookup (download_route [] 1261 5
        ⟨[(5, ⟨5, 0, "x.zip"⟩)], [(5, [1, 2, 3])]⟩).2.downloads 5 = none ∧
    (List.contains [] (5 : Nat) = false →
      lookup (download_route [] 1261 5
        ⟨[(5, ⟨5, 0, "x.zip"⟩)], [(5, [1, 2, 3])]⟩).2.files 5 = none) :=
  c6_expired_entry_swept [] 1261 5 ⟨5, 0, "x.zip"⟩
    ⟨[(5, ⟨5, 0, "x.zip"⟩)], [(5, [1, 2, 3])]⟩ (by decide) (by decide) (by decide)

/-- Claim C8.  On every exit path of both pipelines (validation failure,
download error, empty download set, email success, email failure) the
per-job temporary tree is removed by the finally clause; the delivery cache
lives in a separate directory and holds a copy of the zip bytes keyed by
the token, so nothing of the temporary tree is part of it. -/
theorem c8_temp_removed_every_exit (env : JobEnv) (st : SrvState) (entries : List Entry)
    (y : Int) (emailSendOk : Bool) :
    (runIndex env st).2.2 = [] ∧ (create_mashup_and_email entries y emailSendOk).2 = [] := by
  constructor
  · unfold runIndex
    repeat' split
    all_goals rfl
  · rfl
